import Mathlib

/-!
Verification of the transcript lifecycle and dual-persistence core of the
speech-to-text repository.  The definitions below are shallow embeddings of
the TypeScript source:

* `src/services/transcriptService.ts` — the localStorage-backed transcript
  service (`getAllTranscripts`, `getSavedTranscripts`, `getTrashTranscripts`,
  `updateTranscript`, `moveToTrash`, `restoreFromTrash`, `permanentlyDelete`,
  `emptyTrash`, `storeTranscriptLocally`).
* `src/app/api/save-transcript/route.ts` — the two-phase save endpoint.
* `src/components/SpeechToText.tsx` — the `saveToServer` retry loop.
* `src/lib/supabase/client.ts` — the module-level read-through cache
  (`getTranscript`, `deleteTranscript`, `clearExpiredCache`).
* `src/services/transcript-service.ts` — the remote-table operations
  (`saveTranscriptContent`, `softDeleteTranscript`, `restoreTranscript`),
  with row-level-security scoping taken from
  `supabase/migrations/schema.sql`.

Timestamps are modelled as natural numbers (milliseconds since the epoch, as
produced by `Date.now()`); ISO-8601 strings in the source order the same way
their numeric instants do.  Stores are modelled as lists: the localStorage
JSON array for the local service, and row lists for the remote tables.
-/

/-- A record of the localStorage `savedTranscripts` array
(`SavedTranscript` in `src/services/transcriptService.ts`). -/
structure SavedTranscript where
  id : String
  text : String
  timestamp : Nat
  deletedAt : Option Nat
  language : Option String
  userId : Option String
deriving DecidableEq, Repr

/-- Replace the first element whose `id` matches, mirroring the
`findIndex` + in-place assignment pattern used by `updateTranscript`,
`moveToTrash` and `restoreFromTrash`; `none` when no element matches
(the JS functions return `false` in that case). -/
def setFirst (store : List SavedTranscript) (id : String)
    (f : SavedTranscript → SavedTranscript) : Option (List SavedTranscript) :=
  match store with
  | [] => none
  | t :: ts =>
    if t.id = id then some (f t :: ts)
    else
      match setFirst ts id f with
      | none => none
      | some ts' => some (t :: ts')

/-- Model of `getAllTranscripts(userId?)`: every stored record, filtered by user when
a user id is supplied. -/
def getAllTranscripts (store : List SavedTranscript)
    (userId : Option String) : List SavedTranscript :=
  match userId with
  | some uid => store.filter (fun t => decide (t.userId = some uid))
  | none => store

/-- Model of `getSavedTranscripts(userId?)`: records not in the trash, filtered by
user when a user id is supplied. -/
def getSavedTranscripts (store : List SavedTranscript)
    (userId : Option String) : List SavedTranscript :=
  store.filter (fun t =>
    t.deletedAt.isNone &&
      (match userId with
       | some uid => decide (t.userId = some uid)
       | none => true))

/-- Model of `getTrashTranscripts(userId?)`: records in the trash, filtered by user
when a user id is supplied. -/
def getTrashTranscripts (store : List SavedTranscript)
    (userId : Option String) : List SavedTranscript :=
  store.filter (fun t =>
    t.deletedAt.isSome &&
      (match userId with
       | some uid => decide (t.userId = some uid)
       | none => true))

/-- Model of `updateTranscript(id, newText)`: overwrite `text` of the first record
with the given id; `(store, false)` when the id is absent. -/
def updateTranscript (store : List SavedTranscript) (id : String)
    (newText : String) : List SavedTranscript × Bool :=
  match setFirst store id (fun t => { t with text := newText }) with
  | none => (store, false)
  | some s => (s, true)

/-- Model of `moveToTrash(id)`: set `deletedAt` of the first record with the given id
to the current time (`new Date().toISOString()`); `(store, false)` when the
id is absent.  Note the source sets the timestamp unconditionally, with no
check of whether the record is already trashed. -/
def moveToTrash (now : Nat) (store : List SavedTranscript)
    (id : String) : List SavedTranscript × Bool :=
  match setFirst store id (fun t => { t with deletedAt := some now }) with
  | none => (store, false)
  | some s => (s, true)

/-- Model of `restoreFromTrash(id)`: drop the `deletedAt` property of the first
record with the given id; `(store, false)` when the id is absent. -/
def restoreFromTrash (store : List SavedTranscript)
    (id : String) : List SavedTranscript × Bool :=
  match setFirst store id (fun t => { t with deletedAt := none }) with
  | none => (store, false)
  | some s => (s, true)

/-- Model of `permanentlyDelete(id)`: remove every record with the given id;
`(store, false)` when nothing was removed (the filtered array has the same
length). -/
def permanentlyDelete (store : List SavedTranscript)
    (id : String) : List SavedTranscript × Bool :=
  let filtered := store.filter (fun t => !decide (t.id = id))
  if filtered.length = store.length then (store, false) else (filtered, true)

/-- Model of `emptyTrash()`: keep only records without `deletedAt`; always returns
`true` (the source returns `true` on the non-exception path regardless of
whether anything was removed, and takes no user id). -/
def emptyTrash (store : List SavedTranscript) : List SavedTranscript × Bool :=
  (store.filter (fun t => t.deletedAt.isNone), true)

/-- Model of `storeTranscriptLocally(transcript, language, userId)`: append a fresh
record whose id is `Date.now().toString()`. -/
def storeTranscriptLocally (store : List SavedTranscript) (text : String)
    (lang : String) (userId : Option String) (now : Nat) :
    List SavedTranscript :=
  store ++ [{ id := toString now, text := text, timestamp := now,
              deletedAt := none, language := some lang, userId := userId }]

/-- The 30-day retention window in milliseconds. -/
def thirtyDaysMs : Nat := 30 * 24 * 60 * 60 * 1000

/-- Modelled from the spec: no operation in `src/` purges expired trash (the
30-day rule is only surfaced by `TrashManagement.tsx` as a `daysLeft`
display).  Spec section 4.2: "`Trashed → Purged` via retention sweep: any
record with `deletedAt` older than 30 days transitions automatically", where
section 8 reads the condition as `now - deletedAt > 30 days`.  The sweep
purges exactly the trashed records past the window. -/
def sweepTrash (now : Nat) (store : List SavedTranscript) :
    List SavedTranscript :=
  store.filter (fun t =>
    match t.deletedAt with
    | some d => decide (now - d ≤ thirtyDaysMs)
    | none => true)

/-! The save endpoint, `POST` in `src/app/api/save-transcript/route.ts`.
The remote tables of `supabase/migrations/schema.sql` are modelled as row
lists; fallible inserts take an explicit failure flag (the test-double fault
injection of the spec), and the server-generated transcript id is passed in
as `newId`. -/

/-- A row of the `transcripts` table. -/
structure TranscriptRow where
  id : String
  userId : String
  title : String
  language : String
  isDeleted : Bool
  updatedAt : Nat
deriving DecidableEq, Repr

/-- A row of the `transcript_contents` table. -/
structure ContentRow where
  transcriptId : String
  content : String
  createdAt : Nat
deriving DecidableEq, Repr

/-- The remote database: both tables. -/
structure RemoteDB where
  transcripts : List TranscriptRow
  contents : List ContentRow
deriving DecidableEq, Repr

/-- The JSON body accepted by the save endpoint. -/
structure SaveRequestBody where
  transcript : Option String
  title : Option String
  userId : Option String
  language : Option String
deriving DecidableEq, Repr

/-- The session state seen by `supabase.auth.getUser()`: an auth error
(with whether its message mentions JWT), no user, or an authenticated
user id. -/
inductive AuthState where
  | authFailed (jwt : Bool)
  | noUser
  | user (uid : String)
deriving DecidableEq, Repr

/-- The endpoint's response: success with the new transcript id, or an
error with its HTTP status. -/
inductive ApiResponse where
  | ok (transcriptId : String)
  | err (status : Nat)
deriving DecidableEq, Repr

/-- JavaScript falsiness of an optional string: absent or the empty
string (the route guards `if (!transcript)` and `if (!userId)`). -/
def jsFalsy : Option String → Bool
  | none => true
  | some s => decide (s = "")

/-- All-whitespace (or empty) text: exactly the strings whose
JavaScript `trim()` is empty, i.e. the `!finalText.trim()` guard of
`saveToServer` and the "empty after trimming" notion of the spec. -/
def isBlank (s : String) : Bool := s.data.all Char.isWhitespace

/-- Model of `POST /api/save-transcript`: validate the body, authenticate, check the
requested owner against the session user, insert the transcript row, insert
the content row, and on a content-insert failure compensate by deleting the
just-created transcript row.  `transcriptInsertFails` and
`contentInsertFails` inject the corresponding backend failures (mapped by
`handleApiError` to a 500 here; the 403/401 special cases of that helper are
not exercised by these flags). -/
def postSaveTranscript (db : RemoteDB) (body : SaveRequestBody)
    (auth : AuthState) (transcriptInsertFails contentInsertFails : Bool)
    (newId : String) (now : Nat) : RemoteDB × ApiResponse :=
  if jsFalsy body.transcript then (db, .err 400)
  else if jsFalsy body.userId then (db, .err 400)
  else
    match auth with
    | .authFailed jwt => (db, .err (if jwt then 401 else 500))
    | .noUser => (db, .err 401)
    | .user uid =>
      if body.userId ≠ some uid then (db, .err 403)
      else if transcriptInsertFails then (db, .err 500)
      else
        let row : TranscriptRow :=
          { id := newId, userId := uid,
            title := match body.title with
                     | some t => if t = "" then "New Transcript" else t
                     | none => "New Transcript",
            language := match body.language with
                        | some l => if l = "" then "en-US" else l
                        | none => "en-US",
            isDeleted := false, updatedAt := now }
        let db1 : RemoteDB := { db with transcripts := db.transcripts ++ [row] }
        if contentInsertFails then
          ({ db1 with transcripts :=
              db1.transcripts.filter (fun r => !decide (r.id = newId)) },
           .err 500)
        else
          ({ db1 with contents := db1.contents ++
              [{ transcriptId := newId,
                 content := body.transcript.getD "", createdAt := now }] },
           .ok newId)

/-! The `saveToServer` retry loop of `src/components/SpeechToText.tsx`.
Each attempt calls `transcriptService.saveTranscriptToServer`; its observable
outcome is either success with a transcript id, a failure whose message
matches the auth substrings checked by the component, or any other
(transient) failure.  The `outcomes` function is the test double: outcome of
the attempt made while `retries` has a given value. -/

/-- Outcome of one `saveTranscriptToServer` attempt as classified by
`saveToServer`. -/
inductive AttemptOutcome where
  | ok (tid : String)
  | authFail
  | transientFail
deriving DecidableEq, Repr

/-- Result of the `while (retries <= maxRetries && !savedSuccessfully)`
loop: the id on success, whether the loop broke on an auth-classified
failure, how many attempts ran, and the waits (ms) performed between
attempts. -/
structure LoopOut where
  success : Option String
  authBreak : Bool
  attempts : Nat
  waits : List Nat
deriving DecidableEq, Repr

/-- One unrolling step per remaining loop iteration.  The fuel argument is
only a structural-recursion bound: starting from `retries = 0` the loop body
can run at most 3 times (`maxRetries = 2`), so `saveLoop` instantiates the
fuel with 3 and the `fuel = 0` base case is never the reason the loop
stops. -/
def saveLoopAux (outcomes : Nat → AttemptOutcome) :
    Nat → Nat → LoopOut
  | 0, _ => { success := none, authBreak := false, attempts := 0, waits := [] }
  | fuel + 1, retries =>
    if retries ≤ 2 then
      match outcomes retries with
      | .ok tid =>
        { success := some tid, authBreak := false, attempts := 1, waits := [] }
      | .authFail =>
        { success := none, authBreak := true, attempts := 1, waits := [] }
      | .transientFail =>
        let w : List Nat := if retries + 1 ≤ 2 then [1000] else []
        let rest := saveLoopAux outcomes fuel (retries + 1)
        { success := rest.success, authBreak := rest.authBreak,
          attempts := rest.attempts + 1, waits := w ++ rest.waits }
    else { success := none, authBreak := false, attempts := 0, waits := [] }

/-- The retry loop of `saveToServer`, entered with `retries = 0`. -/
def saveLoop (outcomes : Nat → AttemptOutcome) : LoopOut :=
  saveLoopAux outcomes 3 0

/-- Everything `saveToServer` makes observable: whether a server save
succeeded, whether `setAuthError(true)` ran, whether the failure-path
`storeLocally` (with its "Saved locally instead" error toast) ran, whether
the logged-out-path `storeLocally` (with its "Saved locally" info toast)
ran, the attempt count, the waits, and the resulting local store. -/
structure SaveToServerOut where
  serverSaved : Option String
  authErrorSet : Bool
  savedLocallyFallback : Bool
  savedLocallyNoUser : Bool
  attempts : Nat
  waits : List Nat
  store : List SavedTranscript
deriving DecidableEq, Repr

/-- Model of `saveToServer(textToSave)` of `SpeechToText.tsx`.  `authErrorState` is
the component's `authError` React state at the time of the call: the final
`if (!savedSuccessfully && !authError)` guard reads this render-time value,
not the value just written by `setAuthError`.  On a successful server save
the service itself mirrors the transcript into the local store
(`storeTranscriptLocally` inside `saveTranscriptToServer`). -/
def saveToServer (text : String) (userId : Option String) (lang : String)
    (outcomes : Nat → AttemptOutcome) (authErrorState : Bool) (now : Nat)
    (store : List SavedTranscript) : SaveToServerOut :=
  if isBlank text then
    { serverSaved := none, authErrorSet := false, savedLocallyFallback := false,
      savedLocallyNoUser := false, attempts := 0, waits := [], store := store }
  else
    match userId with
    | none =>
      { serverSaved := none, authErrorSet := false,
        savedLocallyFallback := false, savedLocallyNoUser := true,
        attempts := 0, waits := [],
        store := storeTranscriptLocally store text lang none now }
    | some uid =>
      let res := saveLoop outcomes
      match res.success with
      | some tid =>
        { serverSaved := some tid, authErrorSet := false,
          savedLocallyFallback := false, savedLocallyNoUser := false,
          attempts := res.attempts, waits := res.waits,
          store := storeTranscriptLocally store text lang (some uid) now }
      | none =>
        if authErrorState then
          { serverSaved := none, authErrorSet := res.authBreak,
            savedLocallyFallback := false, savedLocallyNoUser := false,
            attempts := res.attempts, waits := res.waits, store := store }
        else
          { serverSaved := none, authErrorSet := res.authBreak,
            savedLocallyFallback := true, savedLocallyNoUser := false,
            attempts := res.attempts, waits := res.waits,
            store := storeTranscriptLocally store text lang (some uid) now }

/-! The module-level read-through cache of `src/lib/supabase/client.ts`
(`transcriptCache`, `CACHE_TTL`, `isCacheExpired`, `clearExpiredCache`,
`getTranscript`, `deleteTranscript`).  The `Map` is modelled as an
association list in insertion order; `Map.set` overwrites an existing key in
place, `Map.delete` removes it. -/

/-- Model of `CACHE_TTL = 5 * 60 * 1000` milliseconds. -/
def CACHE_TTL : Nat := 5 * 60 * 1000

/-- Model of `isCacheExpired(timestamp)`: `Date.now() - timestamp > CACHE_TTL`. -/
def isCacheExpired (now ts : Nat) : Bool := decide (now - ts > CACHE_TTL)

/-- The payload cached per transcript id: the spread transcript row plus its
content. -/
structure Payload where
  row : TranscriptRow
  content : String
deriving DecidableEq, Repr

/-- One cache value: the payload and its fetch timestamp. -/
structure CacheEntry where
  data : Payload
  timestamp : Nat
deriving DecidableEq, Repr

/-- The module-level `transcriptCache` map. -/
abbrev Cache : Type := List (String × CacheEntry)

/-- Model of `transcriptCache.get(id)`. -/
def cacheGet (c : Cache) (id : String) : Option CacheEntry :=
  (List.find? (fun p => decide (p.1 = id)) c).map Prod.snd

/-- Model of `transcriptCache.set(id, entry)`: overwrite the entry at an existing
key, otherwise append. -/
def cacheSet (c : Cache) (id : String) (e : CacheEntry) : Cache :=
  match c with
  | [] => [(id, e)]
  | (k, v) :: rest =>
    if k = id then (id, e) :: rest else (k, v) :: cacheSet rest id e

/-- Model of `clearExpiredCache()`: delete every entry whose timestamp is expired. -/
def clearExpiredCache (now : Nat) (c : Cache) : Cache :=
  c.filter (fun p => !isCacheExpired now p.2.timestamp)

/-- The remote fetch performed by `getTranscript` on a cache miss: a
`.single()` select of the transcript row by id, then a `.single()` select of
the content row by transcript id (each yields a row exactly when one row
matches). -/
def fetchRemote (db : RemoteDB) (id : String) : Option Payload :=
  match db.transcripts.filter (fun r => decide (r.id = id)) with
  | [r] =>
    match db.contents.filter (fun c => decide (c.transcriptId = id)) with
    | [c] => some { row := r, content := c.content }
    | _ => none
  | _ => none

/-- The client-module state: the remote database plus the module-level
cache. -/
structure ClientState where
  db : RemoteDB
  cache : Cache
deriving DecidableEq, Repr

/-- Result of `getTranscript`: the payload (`none` models the thrown
error), the resulting state, and whether remote input/output happened. -/
structure GetResult where
  payload : Option Payload
  state : ClientState
  didFetch : Bool
deriving DecidableEq, Repr

/-- The miss path of `getTranscript`: fetch remotely, cache the result with
a fresh timestamp, then sweep expired entries; a failed fetch throws and
leaves the cache untouched. -/
def getTranscriptFetch (now : Nat) (st : ClientState) (id : String) :
    GetResult :=
  match fetchRemote st.db id with
  | none => { payload := none, state := st, didFetch := true }
  | some p =>
    let c1 := cacheSet st.cache id { data := p, timestamp := now }
    { payload := some p,
      state := { st with cache := clearExpiredCache now c1 },
      didFetch := true }

/-- Model of `getTranscript(id)` of `src/lib/supabase/client.ts`: serve a cached,
unexpired entry without remote input/output, otherwise fetch through. -/
def getTranscript (now : Nat) (st : ClientState) (id : String) : GetResult :=
  match cacheGet st.cache id with
  | some e =>
    if isCacheExpired now e.timestamp then getTranscriptFetch now st id
    else { payload := some e.data, state := st, didFetch := false }
  | none => getTranscriptFetch now st id

/-- Model of `deleteTranscript(id)` of `src/lib/supabase/client.ts`: delete the
content rows (scoped by the row-level-security delete policy of
`schema.sql` to rows whose parent transcript is owned by the
authenticated user), delete the transcript row (`.eq('id', id)`
`.eq('user_id', user.id)`), and remove the cache entry. -/
def deleteTranscript (authUid : String) (st : ClientState) (id : String) :
    ClientState × Bool :=
  let owned := st.db.transcripts.any (fun r => decide (r.id = id ∧ r.userId = authUid))
  let contents' := st.db.contents.filter
    (fun c => !(decide (c.transcriptId = id) && owned))
  let transcripts' := st.db.transcripts.filter
    (fun r => !decide (r.id = id ∧ r.userId = authUid))
  let cache' := st.cache.filter (fun p => !decide (p.1 = id))
  ({ db := { transcripts := transcripts', contents := contents' },
     cache := cache' }, true)

/-! The remote-table operations of `src/services/transcript-service.ts`.
Their queries filter only by `.eq('id', transcriptId)`; the row-level
security policies of `schema.sql` (`USING (auth.uid() = user_id)`) further
restrict which rows an update can touch, and an update matching zero rows is
not an error, so the functions return `true` in that case.  These modules
hold no reference to the `transcriptCache` of `src/lib/supabase/client.ts`,
so the client wrappers below leave the cache component unchanged. -/

/-- Model of `softDeleteTranscript(transcriptId)`: set `is_deleted` and bump
`updated_at` on the matching rows the policy lets the caller update. -/
def softDeleteTranscript (authUid : String) (now : Nat) (db : RemoteDB)
    (id : String) : RemoteDB × Bool :=
  ({ db with transcripts := db.transcripts.map (fun r =>
      if r.id = id ∧ r.userId = authUid then
        { r with isDeleted := true, updatedAt := now }
      else r) }, true)

/-- Model of `restoreTranscript(transcriptId)`: clear `is_deleted` and bump
`updated_at` on the matching rows the policy lets the caller update. -/
def restoreTranscript (authUid : String) (now : Nat) (db : RemoteDB)
    (id : String) : RemoteDB × Bool :=
  ({ db with transcripts := db.transcripts.map (fun r =>
      if r.id = id ∧ r.userId = authUid then
        { r with isDeleted := false, updatedAt := now }
      else r) }, true)

/-- Model of `saveTranscriptContent(transcriptId, content)`: bump `updated_at`
(result discarded by the source), then insert a new content revision; the
insert's `WITH CHECK` policy requires a parent transcript owned by the
caller, so it fails (and the function returns `false`) otherwise. -/
def saveTranscriptContent (authUid : String) (now : Nat) (db : RemoteDB)
    (id : String) (content : String) : RemoteDB × Bool :=
  let ts := db.transcripts.map (fun r =>
    if r.id = id ∧ r.userId = authUid then { r with updatedAt := now } else r)
  if db.transcripts.any (fun r => decide (r.id = id ∧ r.userId = authUid)) then
    ({ transcripts := ts,
       contents := db.contents ++ [{ transcriptId := id, content := content,
                                     createdAt := now }] }, true)
  else ({ transcripts := ts, contents := db.contents }, false)

/-- Model of `saveTranscriptContent` seen from the client-module state: the function
lives in `transcript-service.ts` and cannot touch the module-private
`transcriptCache`, so the cache is carried over unchanged. -/
def saveTranscriptContentClient (authUid : String) (now : Nat)
    (st : ClientState) (id : String) (content : String) :
    ClientState × Bool :=
  let r := saveTranscriptContent authUid now st.db id content
  ({ db := r.1, cache := st.cache }, r.2)

/-- Model of `softDeleteTranscript` seen from the client-module state; the cache is
carried over unchanged for the same reason. -/
def softDeleteTranscriptClient (authUid : String) (now : Nat)
    (st : ClientState) (id : String) : ClientState × Bool :=
  let r := softDeleteTranscript authUid now st.db id
  ({ db := r.1, cache := st.cache }, r.2)

/-- Model of `restoreTranscript` seen from the client-module state; the cache is
carried over unchanged for the same reason. -/
def restoreTranscriptClient (authUid : String) (now : Nat)
    (st : ClientState) (id : String) : ClientState × Bool :=
  let r := restoreTranscript authUid now st.db id
  ({ db := r.1, cache := st.cache }, r.2)

/-! A concrete cache-coherence scenario: one remote transcript `"t1"` with
content `"old"`, read once (populating the cache), then updated to `"new"`
through `saveTranscriptContent`, then read again 2 seconds later — well
inside the 5-minute TTL. -/

/-- The remote database of the scenario before any call. -/
def coherenceDb : RemoteDB :=
  { transcripts := [{ id := "t1", userId := "u1", title := "T",
                      language := "en-US", isDeleted := false,
                      updatedAt := 0 }],
    contents := [{ transcriptId := "t1", content := "old", createdAt := 0 }] }

/-- The client state after the first read (cache populated at time 0) and a
`saveTranscriptContent` of `"new"` at time 1000. -/
def coherenceAfterUpdate : ClientState :=
  (saveTranscriptContentClient "u1" 1000
    (getTranscript 0 { db := coherenceDb, cache := [] } "t1").state
    "t1" "new").1

/-! Helper lemmas about `setFirst`. -/

theorem setFirst_eq_none_of_not_mem (store : List SavedTranscript)
    (id : String) (f : SavedTranscript → SavedTranscript)
    (h : ∀ t ∈ store, t.id ≠ id) : setFirst store id f = none := by
  induction store with
  | nil => rfl
  | cons t ts ih =>
    have ht : t.id ≠ id := h t (List.mem_cons_self t ts)
    have hts : ∀ u ∈ ts, u.id ≠ id := fun u hu => h u (List.mem_cons_of_mem t hu)
    simp [setFirst, ht, ih hts]

theorem not_mem_of_setFirst_eq_none (store : List SavedTranscript)
    (id : String) (f : SavedTranscript → SavedTranscript) :
    setFirst store id f = none → ∀ t ∈ store, t.id ≠ id := by
  induction store with
  | nil => intro _ t ht; cases ht
  | cons t ts ih =>
    intro h u hu
    by_cases ht : t.id = id
    · simp [setFirst, ht] at h
    · simp only [setFirst, ht, if_false] at h
      cases hrec : setFirst ts id f with
      | none =>
        rcases List.mem_cons.mp hu with h1 | h2
        · subst h1; exact ht
        · exact ih hrec u h2
      | some ts' => rw [hrec] at h; cases h

theorem filter_ne_id_eq_self (store : List SavedTranscript) (id : String)
    (h : ∀ t ∈ store, t.id ≠ id) :
    store.filter (fun t => !decide (t.id = id)) = store := by
  induction store with
  | nil => rfl
  | cons t ts ih =>
    have ht : t.id ≠ id := h t (List.mem_cons_self t ts)
    have hts : ∀ u ∈ ts, u.id ≠ id := fun u hu => h u (List.mem_cons_of_mem t hu)
    simp [List.filter, ht, ih hts]

/-- Applying `setFirst` twice at the same id with overwriting updates keeps
only the second update, provided the second function absorbs the first. -/
theorem setFirst_setFirst (store : List SavedTranscript) (id : String)
    (f g : SavedTranscript → SavedTranscript)
    (habsorb : ∀ t, g (f t) = g t)
    (hid : ∀ t, (f t).id = t.id) :
    (match setFirst store id f with
     | none => setFirst store id g
     | some s => setFirst s id g) = setFirst store id g := by
  induction store with
  | nil => rfl
  | cons t ts ih =>
    by_cases ht : t.id = id
    · simp [setFirst, ht, hid t, habsorb t]
    · simp only [setFirst, ht, if_false]
      cases h : setFirst ts id f with
      | none => simp [setFirst, ht, h]
      | some ts' =>
        have := ih
        rw [h] at this
        simp [setFirst, ht, ← this]

theorem filter_row_ne_id_eq_self (l : List TranscriptRow) (id : String)
    (h : ∀ r ∈ l, r.id ≠ id) :
    l.filter (fun r => !decide (r.id = id)) = l := by
  induction l with
  | nil => rfl
  | cons r rs ih =>
    have hr : r.id ≠ id := h r (List.mem_cons_self r rs)
    have hrs : ∀ u ∈ rs, u.id ≠ id := fun u hu => h u (List.mem_cons_of_mem r hu)
    simp [List.filter, hr, ih hrs]

/-- C9: `emptyTrash` always reports success and keeps exactly the records
without a `deletedAt` timestamp, unchanged; it reads the store with no user
filter, so trashed records of every user are removed. -/
theorem emptyTrash_removes_exactly_trashed (store : List SavedTranscript) :
    (emptyTrash store).2 = true ∧
    ∀ t : SavedTranscript,
      t ∈ (emptyTrash store).1 ↔ t ∈ store ∧ t.deletedAt = none := by
  refine ⟨rfl, fun t => ?_⟩
  simp [emptyTrash, List.mem_filter, Option.isNone_iff_eq_none]

/-- C10: when the target id occurs nowhere in the store, `updateTranscript`,
`moveToTrash`, `restoreFromTrash` and `permanentlyDelete` all return `false`
and leave the store exactly as it was. -/
theorem notFound_mutations_leave_store_unchanged
    (store : List SavedTranscript) (id newText : String) (now : Nat)
    (h : ∀ t ∈ store, t.id ≠ id) :
    updateTranscript store id newText = (store, false) ∧
    moveToTrash now store id = (store, false) ∧
    restoreFromTrash store id = (store, false) ∧
    permanentlyDelete store id = (store, false) := by
  refine ⟨?_, ?_, ?_, ?_⟩
  · simp [updateTranscript, setFirst_eq_none_of_not_mem store id _ h]
  · simp [moveToTrash, setFirst_eq_none_of_not_mem store id _ h]
  · simp [restoreFromTrash, setFirst_eq_none_of_not_mem store id _ h]
  · simp [permanentlyDelete, filter_ne_id_eq_self store id h]

theorem notFound_mutations_leave_store_unchanged_witness :
    updateTranscript
        [{ id := "a", text := "x", timestamp := 0, deletedAt := none,
           language := none, userId := none }] "b" "z"
      = ([{ id := "a", text := "x", timestamp := 0, deletedAt := none,
            language := none, userId := none }], false) ∧
    moveToTrash 9
        [{ id := "a", text := "x", timestamp := 0, deletedAt := none,
           language := none, userId := none }] "b"
      = ([{ id := "a", text := "x", timestamp := 0, deletedAt := none,
            language := none, userId := none }], false) ∧
    restoreFromTrash
        [{ id := "a", text := "x", timestamp := 0, deletedAt := none,
           language := none, userId := none }] "b"
      = ([{ id := "a", text := "x", timestamp := 0, deletedAt := none,
            language := none, userId := none }], false) ∧
    permanentlyDelete
        [{ id := "a", text := "x", timestamp := 0, deletedAt := none,
           language := none, userId := none }] "b"
      = ([{ id := "a", text := "x", timestamp := 0, deletedAt := none,
            language := none, userId := none }], false) :=
  notFound_mutations_leave_store_unchanged _ "b" "z" 9 (by decide)

/-- C4 counterexample: `moveToTrash` on an already-trashed record does not
preserve the first-set `deletedAt`; the call reports success and overwrites
the timestamp (`deletedAt` moves from 100 to 200). -/
theorem moveToTrash_second_call_resets_deletedAt :
    moveToTrash 200
        [{ id := "1", text := "x", timestamp := 0, deletedAt := some 100,
           language := none, userId := none }] "1"
      = ([{ id := "1", text := "x", timestamp := 0, deletedAt := some 200,
            language := none, userId := none }], true) ∧
    (some 200 : Option Nat) ≠ some 100 := by decide

/-- C4 as amended: a repeated `moveToTrash` is not a timestamp-preserving
no-op; the second call overwrites `deletedAt` with its own time, so trashing
twice is the same as trashing once at the second time (last write wins). -/
theorem moveToTrash_last_write_wins (store : List SavedTranscript)
    (id : String) (t1 t2 : Nat) :
    moveToTrash t2 (moveToTrash t1 store id).1 id = moveToTrash t2 store id := by
  have h := setFirst_setFirst store id
    (fun t => { t with deletedAt := some t1 })
    (fun t => { t with deletedAt := some t2 })
    (fun t => rfl) (fun t => rfl)
  cases hf : setFirst store id (fun t => { t with deletedAt := some t1 }) with
  | none => simp [moveToTrash, hf]
  | some s =>
    have h2 : (setFirst s id fun t => { t with deletedAt := some t2 }) =
        setFirst store id fun t => { t with deletedAt := some t2 } := by
      rw [hf] at h; exact h
    simp only [moveToTrash, hf]
    rw [h2]
    cases hg : setFirst store id (fun t => { t with deletedAt := some t2 }) with
    | none =>
      have hno := not_mem_of_setFirst_eq_none store id _ hg
      rw [setFirst_eq_none_of_not_mem store id _ hno] at hf
      cases hf
    | some w => simp

/-- C1: with an authenticated owner, a successful transcript-record insert
followed by a failing content-revision insert makes the endpoint delete the
just-created transcript record — the store comes back exactly to its prior
state, so no record created by the operation remains — and answer with a
failure status, never a success.  `hfresh` states that the server-generated
id is fresh, as a primary key is. -/
theorem two_phase_save_compensates (db : RemoteDB) (body : SaveRequestBody)
    (uid newId : String) (now : Nat)
    (htr : jsFalsy body.transcript = false)
    (huid : body.userId = some uid) (hne : uid ≠ "")
    (hfresh : ∀ r ∈ db.transcripts, r.id ≠ newId) :
    (postSaveTranscript db body (.user uid) false true newId now).1 = db ∧
    (postSaveTranscript db body (.user uid) false true newId now).2
      = .err 500 := by
  have hui2 : jsFalsy (some uid) = false := by simpa [jsFalsy] using hne
  have hfil : ∀ row : TranscriptRow, row.id = newId →
      (db.transcripts ++ [row]).filter (fun r => !decide (r.id = newId))
        = db.transcripts := by
    intro row hrow
    rw [List.filter_append, filter_row_ne_id_eq_self db.transcripts newId hfresh]
    simp [List.filter, hrow]
  constructor
  · simp [postSaveTranscript, htr, huid, hui2, hfil]
  · simp [postSaveTranscript, htr, huid, hui2]

theorem two_phase_save_compensates_witness :
    (postSaveTranscript
        { transcripts := [{ id := "e1", userId := "u1", title := "T",
                            language := "en-US", isDeleted := false,
                            updatedAt := 0 }], contents := [] }
        { transcript := some "hello", title := none, userId := some "u1",
          language := none }
        (.user "u1") false true "t9" 7).1
      = { transcripts := [{ id := "e1", userId := "u1", title := "T",
                            language := "en-US", isDeleted := false,
                            updatedAt := 0 }], contents := [] } ∧
    (postSaveTranscript
        { transcripts := [{ id := "e1", userId := "u1", title := "T",
                            language := "en-US", isDeleted := false,
                            updatedAt := 0 }], contents := [] }
        { transcript := some "hello", title := none, userId := some "u1",
          language := none }
        (.user "u1") false true "t9" 7).2
      = .err 500 :=
  two_phase_save_compensates _ _ "u1" "t9" 7 (by decide) rfl (by decide)
    (by decide)

/-- C6 counterexample: a save request whose content is whitespace only — and
hence empty after trimming — passes the route's `if (!transcript)` guard:
with a matching authenticated user the endpoint reports success and creates
both a transcript record and a content revision, so the request is not
rejected and store writes do happen. -/
theorem route_accepts_whitespace_only_content :
    isBlank "   " = true ∧
    postSaveTranscript { transcripts := [], contents := [] }
        { transcript := some "   ", title := none, userId := some "u1",
          language := none }
        (.user "u1") false false "t1" 0
      = ({ transcripts := [{ id := "t1", userId := "u1",
                             title := "New Transcript", language := "en-US",
                             isDeleted := false, updatedAt := 0 }],
           contents := [{ transcriptId := "t1", content := "   ",
                          createdAt := 0 }] },
         .ok "t1") := by decide

/-- C6 as amended: the route rejects synchronously, with a 400 validation
failure and before any store access, exactly the requests whose content is
absent or the empty string; whitespace-only content is accepted and stored.
Separately, the client-side `saveToServer` drops blank text (empty after
trimming) before any attempt — without reporting a validation failure. -/
theorem route_rejects_falsy_content (db : RemoteDB) (body : SaveRequestBody)
    (auth : AuthState) (tIF cIF : Bool) (newId : String) (now : Nat)
    (text : String) (userId : Option String) (lang : String)
    (outcomes : Nat → AttemptOutcome) (authSt : Bool) (now2 : Nat)
    (store : List SavedTranscript) :
    (jsFalsy body.transcript = true →
      postSaveTranscript db body auth tIF cIF newId now = (db, .err 400)) ∧
    (isBlank text = true →
      saveToServer text userId lang outcomes authSt now2 store
        = { serverSaved := none, authErrorSet := false,
            savedLocallyFallback := false, savedLocallyNoUser := false,
            attempts := 0, waits := [], store := store }) := by
  constructor
  · intro h; simp [postSaveTranscript, h]
  · intro h; simp [saveToServer, h]

theorem route_rejects_falsy_content_witness :
    postSaveTranscript { transcripts := [], contents := [] }
        { transcript := some "", title := none, userId := some "u1",
          language := none }
        (.user "u1") false false "t1" 0
      = ({ transcripts := [], contents := [] }, .err 400) ∧
    saveToServer " " none "en-US" (fun _ => .transientFail) false 0 []
      = { serverSaved := none, authErrorSet := false,
          savedLocallyFallback := false, savedLocallyNoUser := false,
          attempts := 0, waits := [], store := [] } :=
  ⟨(route_rejects_falsy_content { transcripts := [], contents := [] }
      { transcript := some "", title := none, userId := some "u1",
        language := none }
      (.user "u1") false false "t1" 0 " " none "en-US"
      (fun _ => .transientFail) false 0 []).1 (by decide),
   (route_rejects_falsy_content { transcripts := [], contents := [] }
      { transcript := some "", title := none, userId := some "u1",
        language := none }
      (.user "u1") false false "t1" 0 " " none "en-US"
      (fun _ => .transientFail) false 0 []).2 (by decide)⟩

theorem saveLoop_all_transient (outcomes : Nat → AttemptOutcome)
    (h : ∀ k, k ≤ 2 → outcomes k = .transientFail) :
    saveLoop outcomes = { success := none, authBreak := false, attempts := 3,
                          waits := [1000, 1000] } := by
  simp [saveLoop, saveLoopAux, h 0 (by decide), h 1 (by decide),
    h 2 (by decide)]

/-- C2: with an owner present and every attempt failing transiently, the
`saveToServer` loop makes exactly 3 attempts (the initial one plus 2
retries) with a fixed 1000 ms wait between consecutive attempts, then
stores the transcript locally and reports the saved-locally fallback — not
a server success; and a failure classified as an authentication failure on
the first attempt stops the loop at once, with no retry.  `false` is the
component's initial `authError` state. -/
theorem save_retry_fallback_local (text uid lang : String)
    (outcomes : Nat → AttemptOutcome) (now : Nat)
    (store : List SavedTranscript) (hb : isBlank text = false) :
    ((∀ k, k ≤ 2 → outcomes k = .transientFail) →
      saveToServer text (some uid) lang outcomes false now store
        = { serverSaved := none, authErrorSet := false,
            savedLocallyFallback := true, savedLocallyNoUser := false,
            attempts := 3, waits := [1000, 1000],
            store := storeTranscriptLocally store text lang (some uid) now }) ∧
    (outcomes 0 = .authFail →
      saveToServer text (some uid) lang outcomes false now store
        = { serverSaved := none, authErrorSet := true,
            savedLocallyFallback := true, savedLocallyNoUser := false,
            attempts := 1, waits := [],
            store := storeTranscriptLocally store text lang (some uid) now }) := by
  constructor
  · intro h
    simp [saveToServer, hb, saveLoop_all_transient outcomes h]
  · intro h
    simp [saveToServer, hb, saveLoop, saveLoopAux, h]

theorem save_retry_fallback_local_witness :
    saveToServer "hello" (some "u1") "en-US" (fun _ => .transientFail)
        false 5 []
      = { serverSaved := none, authErrorSet := false,
          savedLocallyFallback := true, savedLocallyNoUser := false,
          attempts := 3, waits := [1000, 1000],
          store := [{ id := "5", text := "hello", timestamp := 5,
                      deletedAt := none, language := some "en-US",
                      userId := some "u1" }] } := by
  have h := (save_retry_fallback_local "hello" "u1" "en-US"
    (fun _ => .transientFail) 5 [] (by decide)).1 (fun k _ => rfl)
  simpa [storeTranscriptLocally] using h

/-- C5 counterexample: after `saveTranscriptContent` writes the revision
`"new"` for transcript `"t1"`, a `getTranscript` two seconds later — within
the 5-minute TTL — serves the cached payload with the stale content `"old"`
and performs no remote input/output: the update did not evict the cache
entry (`saveTranscriptContent` lives in `transcript-service.ts`, which has
no access to the `transcriptCache` of `client.ts`). -/
theorem stale_read_after_update_within_ttl :
    (getTranscript 2000 coherenceAfterUpdate "t1").didFetch = false ∧
    ((getTranscript 2000 coherenceAfterUpdate "t1").payload.map
        Payload.content) = some "old" ∧
    coherenceAfterUpdate.db.contents.map ContentRow.content
      = ["old", "new"] ∧
    2000 - (0 : Nat) ≤ CACHE_TTL := by decide

/-- C5 as amended: among the mutations, only the permanent delete
(`deleteTranscript` in `src/lib/supabase/client.ts`) evicts the record's
cache entry; the update (`saveTranscriptContent`), soft-delete
(`softDeleteTranscript`) and restore (`restoreTranscript`) of
`transcript-service.ts` leave the module cache untouched, so reads within
the TTL after those mutations can return stale data. -/
theorem only_delete_evicts_cache (authUid : String) (now : Nat)
    (st : ClientState) (id content : String) :
    cacheGet (deleteTranscript authUid st id).1.cache id = none ∧
    (saveTranscriptContentClient authUid now st id content).1.cache
      = st.cache ∧
    (softDeleteTranscriptClient authUid now st id).1.cache = st.cache ∧
    (restoreTranscriptClient authUid now st id).1.cache = st.cache := by
  refine ⟨?_, rfl, rfl, rfl⟩
  have : List.find? (fun p => decide (p.1 = id))
      (List.filter (fun p => !decide (p.1 = id)) st.cache) = none := by
    rw [List.find?_eq_none]
    intro x hx
    have := (List.mem_filter.mp hx).2
    simpa using this
  simp [deleteTranscript, cacheGet, this]

theorem cacheGet_clearExpiredCache_cacheSet (c : Cache) (id : String)
    (e : CacheEntry) (now : Nat)
    (hfresh : isCacheExpired now e.timestamp = false) :
    cacheGet (clearExpiredCache now (cacheSet c id e)) id = some e := by
  induction c with
  | nil =>
    simp [cacheSet, clearExpiredCache, cacheGet, List.filter, hfresh]
  | cons p rest ih =>
    obtain ⟨k, v⟩ := p
    by_cases hk : k = id
    · subst hk
      simp [cacheSet, clearExpiredCache, cacheGet, List.filter, hfresh]
    · simp only [cacheSet, hk, if_false]
      by_cases hv : isCacheExpired now v.timestamp
      · simpa [clearExpiredCache, List.filter, hv] using ih
      · simp only [Bool.not_eq_true] at hv
        simpa [clearExpiredCache, cacheGet, List.filter, hv, hk] using ih

theorem mem_clearExpiredCache_fresh (now : Nat) (c : Cache)
    (q : String × CacheEntry) (h : q ∈ clearExpiredCache now c) :
    now - q.2.timestamp ≤ CACHE_TTL := by
  have hq := (List.mem_filter.mp h).2
  simp only [isCacheExpired, Bool.not_eq_eq_eq_not, Bool.not_true,
    decide_eq_false_iff_not, Nat.not_lt] at hq
  exact hq

/-- C7 counterexample: with a cache entry exactly 5 minutes old
(`now - timestamp = CACHE_TTL`), `getTranscript` still serves the cache and
performs no remote input/output, although `now - timestamp < 5 minutes`
fails — the source expires entries only strictly beyond the TTL
(`Date.now() - timestamp > CACHE_TTL`), so the claimed ``exactly when ...
< 5 minutes'' characterization is off at the boundary. -/
theorem cache_hit_at_exact_ttl_boundary :
    (getTranscript 300000
        { db := { transcripts := [], contents := [] },
          cache := [("t1",
            { data := { row := { id := "t1", userId := "u1", title := "T",
                                 language := "en-US", isDeleted := false,
                                 updatedAt := 0 }, content := "x" },
              timestamp := 0 })] } "t1").didFetch = false ∧
    ¬ (300000 - 0 < CACHE_TTL) := by decide

/-- C7 as amended: `getTranscript` returns the cached payload without remote
input/output exactly when an entry exists and `now - timestamp ≤ 5 minutes`
(the boundary instant is still a hit); otherwise, when the remote fetch
succeeds, it returns the fetched payload, stores it under a fresh timestamp,
and the insertion sweeps every expired entry from the cache. -/
theorem cache_hit_iff_within_ttl (now : Nat) (st : ClientState)
    (id : String) :
    ((getTranscript now st id).didFetch = false ↔
      ∃ e, cacheGet st.cache id = some e ∧ now - e.timestamp ≤ CACHE_TTL) ∧
    (∀ e, cacheGet st.cache id = some e → now - e.timestamp ≤ CACHE_TTL →
      getTranscript now st id
        = { payload := some e.data, state := st, didFetch := false }) ∧
    (∀ p, fetchRemote st.db id = some p →
      (cacheGet st.cache id = none ∨
        ∃ e, cacheGet st.cache id = some e ∧ CACHE_TTL < now - e.timestamp) →
      (getTranscript now st id).payload = some p ∧
      cacheGet (getTranscript now st id).state.cache id
        = some { data := p, timestamp := now } ∧
      ∀ q ∈ (getTranscript now st id).state.cache,
        now - q.2.timestamp ≤ CACHE_TTL) := by
  refine ⟨?_, ?_, ?_⟩
  · cases hc : cacheGet st.cache id with
    | none =>
      simp only [getTranscript, hc]
      constructor
      · intro h
        exfalso
        cases hf : fetchRemote st.db id <;>
          simp [getTranscriptFetch, hf] at h
      · rintro ⟨e, he, _⟩; cases he
    | some e =>
      by_cases hexp : isCacheExpired now e.timestamp
      · simp only [getTranscript, hc, hexp, if_true]
        constructor
        · intro h
          exfalso
          cases hf : fetchRemote st.db id <;>
            simp [getTranscriptFetch, hf] at h
        · rintro ⟨e', he', hle⟩
          cases he'
          exfalso
          simp only [isCacheExpired, decide_eq_true_eq] at hexp
          omega
      · simp only [getTranscript, hc, hexp, if_false]
        constructor
        · intro _
          exact ⟨e, rfl, by simpa [isCacheExpired, Nat.not_lt] using hexp⟩
        · intro _
          trivial
  · intro e he hle
    have hexp : isCacheExpired now e.timestamp = false := by
      simp [isCacheExpired, Nat.not_lt.mpr hle]
    simp [getTranscript, he, hexp]
  · intro p hp hmiss
    have hfresh : isCacheExpired now now = false := by
      simp [isCacheExpired]
    have hgoal : getTranscript now st id = getTranscriptFetch now st id := by
      rcases hmiss with hnone | ⟨e, he, hgt⟩
      · simp [getTranscript, hnone]
      · have hexp : isCacheExpired now e.timestamp = true := by
          simp [isCacheExpired, hgt]
        simp [getTranscript, he, hexp]
    rw [hgoal]
    simp only [getTranscriptFetch, hp]
    refine ⟨by trivial, ?_, ?_⟩
    · exact cacheGet_clearExpiredCache_cacheSet st.cache id _ now hfresh
    · intro q hq
      exact mem_clearExpiredCache_fresh now _ q hq

theorem cache_hit_iff_within_ttl_witness :
    getTranscript 1000
        { db := { transcripts := [], contents := [] },
          cache := [("t1",
            { data := { row := { id := "t1", userId := "u1", title := "T",
                                 language := "en-US", isDeleted := false,
                                 updatedAt := 0 }, content := "x" },
              timestamp := 0 })] } "t1"
      = { payload := some { row := { id := "t1", userId := "u1", title := "T",
                                     language := "en-US", isDeleted := false,
                                     updatedAt := 0 }, content := "x" },
          state := { db := { transcripts := [], contents := [] },
                     cache := [("t1",
                       { data := { row := { id := "t1", userId := "u1",
                                            title := "T", language := "en-US",
                                            isDeleted := false,
                                            updatedAt := 0 },
                                   content := "x" },
                         timestamp := 0 })] },
          didFetch := false } :=
  (cache_hit_iff_within_ttl 1000
    { db := { transcripts := [], contents := [] },
      cache := [("t1",
        { data := { row := { id := "t1", userId := "u1", title := "T",
                             language := "en-US", isDeleted := false,
                             updatedAt := 0 }, content := "x" },
          timestamp := 0 })] } "t1").2.1
    { data := { row := { id := "t1", userId := "u1", title := "T",
                         language := "en-US", isDeleted := false,
                         updatedAt := 0 }, content := "x" },
      timestamp := 0 } (by decide) (by decide)

/-- C8 counterexample: the local-store lifecycle operations take no caller
identity at all, so a trash request issued from any caller's session against
a record owned by user `"u2"` succeeds (`true`) and mutates that record —
it neither fails with an authorization denial nor leaves the other user's
record unchanged. -/
theorem local_moveToTrash_ignores_ownership :
    moveToTrash 500
        [{ id := "x", text := "note", timestamp := 0, deletedAt := none,
           language := none, userId := some "u2" }] "x"
      = ([{ id := "x", text := "note", timestamp := 0,
            deletedAt := some 500, language := none,
            userId := some "u2" }], true) ∧
    (some "u2" : Option String) ≠ some "u1" := by decide

/-- C8 as amended: remote lifecycle transitions are scoped by the
row-level-security policies (`auth.uid() = user_id`): when no row with the
target id belongs to the caller, soft-delete and restore leave the database
unchanged yet still report success (zero rows affected is not an error —
there is no authorization denial), the content update inserts nothing and
reports failure, and the permanent delete leaves the remote tables unchanged
while reporting success; the local-store operations, by contrast, are not
owner-scoped at all. -/
theorem rls_scoped_transitions_frame (db : RemoteDB) (st : ClientState)
    (authUid id content : String) (now : Nat)
    (h : ∀ r ∈ db.transcripts, r.id = id → r.userId ≠ authUid)
    (h2 : ∀ r ∈ st.db.transcripts, r.id = id → r.userId ≠ authUid) :
    softDeleteTranscript authUid now db id = (db, true) ∧
    restoreTranscript authUid now db id = (db, true) ∧
    saveTranscriptContent authUid now db id content = (db, false) ∧
    (deleteTranscript authUid st id).1.db = st.db ∧
    (deleteTranscript authUid st id).2 = true := by
  have hmap : ∀ (l : List TranscriptRow)
      (hl : ∀ r ∈ l, r.id = id → r.userId ≠ authUid)
      (g : TranscriptRow → TranscriptRow),
      l.map (fun r =>
        if r.id = id ∧ r.userId = authUid then g r else r) = l := by
    intro l hl g
    induction l with
    | nil => rfl
    | cons r rs ih =>
      have hr : ¬ (r.id = id ∧ r.userId = authUid) := fun hc =>
        hl r (List.mem_cons_self r rs) hc.1 hc.2
      have hrs : ∀ u ∈ rs, u.id = id → u.userId ≠ authUid := fun u hu =>
        hl u (List.mem_cons_of_mem r hu)
      simp [hr, ih hrs]
  have hany : ∀ (l : List TranscriptRow)
      (hl : ∀ r ∈ l, r.id = id → r.userId ≠ authUid),
      l.any (fun r => decide (r.id = id ∧ r.userId = authUid)) = false := by
    intro l hl
    rw [List.any_eq_false]
    intro r hr
    simp only [decide_eq_true_eq, not_and]
    exact hl r hr
  have hfil : st.db.transcripts.filter
      (fun r => !decide (r.id = id ∧ r.userId = authUid))
        = st.db.transcripts := by
    rw [List.filter_eq_self]
    intro r hr
    simp only [Bool.not_eq_eq_eq_not, Bool.not_true, decide_eq_false_iff_not,
      not_and]
    exact h2 r hr
  refine ⟨?_, ?_, ?_, ?_, rfl⟩
  · simp [softDeleteTranscript, hmap db.transcripts h]
  · simp [restoreTranscript, hmap db.transcripts h]
  · simp only [saveTranscriptContent, hany db.transcripts h,
      hmap db.transcripts h, Bool.false_eq_true, if_false]
  · simp only [deleteTranscript, hany st.db.transcripts h2, Bool.and_false,
      Bool.not_false, List.filter_true, hfil]

theorem rls_scoped_transitions_frame_witness :
    softDeleteTranscript "u1" 9
        { transcripts := [{ id := "x", userId := "u2", title := "T",
                            language := "en-US", isDeleted := false,
                            updatedAt := 0 }], contents := [] } "x"
      = ({ transcripts := [{ id := "x", userId := "u2", title := "T",
                             language := "en-US", isDeleted := false,
                             updatedAt := 0 }], contents := [] }, true) ∧
    saveTranscriptContent "u1" 9
        { transcripts := [{ id := "x", userId := "u2", title := "T",
                            language := "en-US", isDeleted := false,
                            updatedAt := 0 }], contents := [] } "x" "c"
      = ({ transcripts := [{ id := "x", userId := "u2", title := "T",
                             language := "en-US", isDeleted := false,
                             updatedAt := 0 }], contents := [] }, false) := by
  have hh := rls_scoped_transitions_frame
    { transcripts := [{ id := "x", userId := "u2", title := "T",
                        language := "en-US", isDeleted := false,
                        updatedAt := 0 }], contents := [] }
    { db := { transcripts := [{ id := "x", userId := "u2", title := "T",
                                language := "en-US", isDeleted := false,
                                updatedAt := 0 }], contents := [] },
      cache := [] }
    "u1" "x" "c" 9 (by decide) (by decide)
  exact ⟨hh.1, hh.2.2.1⟩

/-- C3: once the retention sweep has run (modelled from the spec, since
`src/` only displays the rule), a trashed record whose `deletedAt` lies more
than 30 days in the past is gone: it appears in no trash listing for any
user filter, `restoreFromTrash` on its id fails (`false`, the local
NotFound outcome) without touching the store, and no record of the swept
store remains trashed beyond the window.  `hids` is the store's id
uniqueness invariant. -/
theorem retention_sweep_purges_expired (store : List SavedTranscript)
    (now d : Nat) (t : SavedTranscript) (ht : t ∈ store)
    (hd : t.deletedAt = some d) (hexp : thirtyDaysMs < now - d)
    (hids : (store.map SavedTranscript.id).Nodup) :
    (∀ uid : Option String, t ∉ getTrashTranscripts (sweepTrash now store) uid) ∧
    restoreFromTrash (sweepTrash now store) t.id
      = (sweepTrash now store, false) ∧
    (∀ t' ∈ sweepTrash now store, ∀ d', t'.deletedAt = some d' →
      now - d' ≤ thirtyDaysMs) := by
  have hpred : (match t.deletedAt with
      | some d => decide (now - d ≤ thirtyDaysMs)
      | none => true) = false := by
    rw [hd]
    simpa using Nat.not_le.mpr hexp
  have htns : t ∉ sweepTrash now store := by
    intro hmem
    have := (List.mem_filter.mp hmem).2
    rw [hpred] at this
    cases this
  refine ⟨?_, ?_, ?_⟩
  · intro uid hmem
    exact htns (List.mem_filter.mp hmem).1
  · have hnone : ∀ u ∈ sweepTrash now store, u.id ≠ t.id := by
      intro u hu hid
      have hus : u ∈ store := (List.mem_filter.mp hu).1
      have : u = t := List.inj_on_of_nodup_map hids hus ht hid
      exact htns (this ▸ hu)
    simp [restoreFromTrash,
      setFirst_eq_none_of_not_mem (sweepTrash now store) t.id _ hnone]
  · intro t' ht' d' hd'
    have := (List.mem_filter.mp ht').2
    rw [hd'] at this
    simpa using this

theorem retention_sweep_purges_expired_witness :
    restoreFromTrash
        (sweepTrash (thirtyDaysMs + 1)
          [{ id := "1", text := "x", timestamp := 0, deletedAt := some 0,
             language := none, userId := some "u1" }]) "1"
      = (sweepTrash (thirtyDaysMs + 1)
          [{ id := "1", text := "x", timestamp := 0, deletedAt := some 0,
             language := none, userId := some "u1" }], false) ∧
    { id := "1", text := "x", timestamp := 0, deletedAt := some 0,
      language := none, userId := some "u1" : SavedTranscript }
      ∉ getTrashTranscripts
          (sweepTrash (thirtyDaysMs + 1)
            [{ id := "1", text := "x", timestamp := 0, deletedAt := some 0,
               language := none, userId := some "u1" }]) (some "u1") := by
  have hh := retention_sweep_purges_expired
    [{ id := "1", text := "x", timestamp := 0, deletedAt := some 0,
       language := none, userId := some "u1" }]
    (thirtyDaysMs + 1) 0
    { id := "1", text := "x", timestamp := 0, deletedAt := some 0,
      language := none, userId := some "u1" }
    (by decide) rfl (by decide) (by decide)
  exact ⟨hh.2.1, hh.1 (some "u1")⟩
